import Mathlib

/-!
Verification development for the certificate-deployment automation in
`src/main.py`.  The Python functions that the specification's testable
properties talk about are embedded shallowly below: Python/JSON values
become the inductive `JVal`, Python method calls that may raise become
`Except`-valued functions, and the page/DOM interactions are abstracted
into explicit state records holding exactly the data the code inspects.
-/

/-- A Python/JSON value as produced by `page.evaluate` (`JSON.parse` output):
`None`, booleans, integers, strings, lists and dicts. -/
inductive JVal where
  | null
  | bool (b : Bool)
  | num (n : Int)
  | str (s : String)
  | list (xs : List JVal)
  | obj (fields : List (String × JVal))

/-- Python truthiness (`if not x`): `None`, `False`, `0`, `""`, `[]`, `{ }`
are falsy, everything else is truthy. -/
def truthy : JVal → Bool
  | .null => false
  | .bool b => b
  | .num n => n != 0
  | .str s => s != ""
  | .list xs => !xs.isEmpty
  | .obj fs => !fs.isEmpty

/-- Errors the embedded code can raise.  The Python code raises bare
`Exception`s with messages; the spec's error taxonomy names them
`DomainNotFoundError`, `SchemaMismatchError`, etc.  `attributeError` models
an uncaught Python `AttributeError` (e.g. `.get` called on a list). -/
inductive ResolveErr where
  | jsNull              -- "Failed to retrieve Plesk data via JS"
  | jsError             -- "JS execution failed inside browser"
  | attributeError      -- Python AttributeError escaping the try block
  | typeError           -- Python TypeError (e.g. `in` on a number)
  | structureMismatch   -- "JSON structure mismatch" (SchemaMismatchError)
  | domainNotFound      -- "Target domain ... not found" (DomainNotFoundError)
deriving Repr, DecidableEq

/-- Python `v.get(key, default)`: only dicts have `.get`; anything else
raises `AttributeError`.  Dict keys are unique, so assoc-list lookup. -/
def pyGet (v : JVal) (key : String) (dflt : JVal) : Except ResolveErr JVal :=
  match v with
  | .obj fields => .ok ((fields.lookup key).getD dflt)
  | _ => .error .attributeError

/-- Python `isinstance(v, list)`. -/
def isPyList : JVal → Bool
  | .list _ => true
  | _ => false

/-- Python `str(v)` for the values `str(item.get("domainId"))` can see.
Container reprs are abbreviated (no claim depends on them); atoms follow
Python exactly: `str(None) = "None"`, `str(7) = "7"`, `str(True) = "True"`. -/
def pyStr : JVal → String
  | .null => "None"
  | .bool true => "True"
  | .bool false => "False"
  | .num n => toString n
  | .str s => s
  | .list _ => "<list>"
  | .obj _ => "<dict>"

/-- `listStartsWith l pat`: `pat` is a prefix of `l` (over characters). -/
def listStartsWith : List Char → List Char → Bool
  | _, [] => true
  | [], _ :: _ => false
  | a :: l, b :: pat => a == b && listStartsWith l pat

/-- `listHasInfix pat l`: `pat` occurs contiguously inside `l`. -/
def listHasInfix (pat : List Char) : List Char → Bool
  | [] => pat.isEmpty
  | a :: l => listStartsWith (a :: l) pat || listHasInfix pat l

/-- Python `s.endswith(t)`: `t` is a suffix of `s`. -/
def strEndsWith (s t : String) : Bool :=
  listStartsWith s.toList.reverse t.toList.reverse

/-- Python `t in s` for strings: substring containment. -/
def strContains (s t : String) : Bool :=
  listHasInfix t.toList s.toList

/-- Python `v == s` for a string literal `s`: equal only when `v` is the
same string; values of other types compare unequal without raising. -/
def jvalEqStr (v : JVal) (s : String) : Bool :=
  match v with
  | .str t => t == s
  | _ => false

/-- Python `v.endswith(s)`: a string method; any non-string receiver
(notably `None`) raises `AttributeError`. -/
def pyEndsWith (v : JVal) (s : String) : Except ResolveErr Bool :=
  match v with
  | .str t => .ok (strEndsWith t s)
  | _ => .error .attributeError

/-- Python `key in v` (membership test): dict keys, list membership of the
string, substring of a string; numbers raise `TypeError`.  Only the dict
case is exercised by `get_web_internal_ids` on well-formed payloads. -/
def pyContains (v : JVal) (key : String) : Except ResolveErr Bool :=
  match v with
  | .obj fs => .ok (fs.any (fun kv => kv.1 == key))
  | .list xs => .ok (xs.any (fun x => jvalEqStr x key))
  | .str s => .ok (strContains s key)
  | _ => .error .typeError

/-- Lines 215-228 of `src/main.py` (the Embedded-Data Extractor's shape
handling, after the in-browser marker search returned `data_obj`):

```
level1 = data_obj.get("data", {})
if not level1:
    level1 = data_obj
level2 = level1.get("data", {})
domains_list = level2.get("data", [])
if not isinstance(domains_list, list):
    domains_list = level1.get("data", [])
if not isinstance(domains_list, list):
    raise Exception("JSON structure mismatch")
```
-/
def extractDomainsList (data_obj : JVal) : Except ResolveErr (List JVal) :=
  match pyGet data_obj "data" (.obj []) with
  | .error e => .error e
  | .ok g =>
    let level1 := if truthy g then g else data_obj
    match pyGet level1 "data" (.obj []) with
    | .error e => .error e
    | .ok level2 =>
      match pyGet level2 "data" (.list []) with
      | .error e => .error e
      | .ok dl0 =>
        match (if isPyList dl0 then .ok dl0 else pyGet level1 "data" (.list [])) with
        | .error e => .error e
        | .ok dl1 =>
          match dl1 with
          | .list xs => .ok xs
          | _ => .error .structureMismatch

/-- The classification loop of `get_web_internal_ids` (lines 235-247),
threading the Python state `(MAIN_WEB_ID, ALL_WEB_IDS, found_main)`:

```
for item in domains_list:
    d_name = item.get("displayName")
    d_id = str(item.get("domainId"))
    if d_name == NC_DOMAIN:
        MAIN_WEB_ID = d_id; ALL_WEB_IDS.append(d_id); found_main = True
    elif d_name.endswith(f".\x7bNC_DOMAIN\x7d"):
        ALL_WEB_IDS.append(d_id)
```
-/
def webLoop (dom : String) :
    List JVal → Option String → List String → Bool →
    Except ResolveErr (Option String × List String × Bool)
  | [], main, all, found => .ok (main, all, found)
  | item :: rest, main, all, found => do
    let d_name ← pyGet item "displayName" .null
    let d_idv ← pyGet item "domainId" .null
    let d_id := pyStr d_idv
    if jvalEqStr d_name dom then
      webLoop dom rest (some d_id) (all ++ [d_id]) true
    else do
      let ends ← pyEndsWith d_name ("." ++ dom)
      if ends then webLoop dom rest main (all ++ [d_id]) found
      else webLoop dom rest main all found

/-- Lines 230-254 of `src/main.py`: run the classification loop on the
extracted domain list, then apply the primary/fallback policy.  Returns
the final `(MAIN_WEB_ID, ALL_WEB_IDS)` pair on success. -/
def resolveWebIds (dom : String) (items : List JVal) :
    Except ResolveErr (String × List String) :=
  match webLoop dom items none [] false with
  | .error e => .error e
  | .ok (main, all, found) =>
    if found then .ok (main.getD "", all)  -- found_main implies MAIN_WEB_ID was assigned
    else
      match all with
      | a :: _ => .ok (a, all)             -- fallback: MAIN_WEB_ID = ALL_WEB_IDS[0]
      | [] => .error .domainNotFound

/-- `get_web_internal_ids` (lines 175-258) from the returned `data_obj`
on: the null/error guards, the shape handling, and the resolution loop. -/
def get_web_internal_ids (dom : String) (data_obj : JVal) :
    Except ResolveErr (String × List String) :=
  if !truthy data_obj then .error .jsNull
  else
    match pyContains data_obj "error" with
    | .error e => .error e
    | .ok true => .error .jsError
    | .ok false =>
      match extractDomainsList data_obj with
      | .error e => .error e
      | .ok xs => resolveWebIds dom xs

/-- True exactly when the warning-logged fallback branch of lines 250-252
(`Main domain not found, utilizing first subdomain as fallback`) runs. -/
def webFallbackTaken (dom : String) (items : List JVal) : Bool :=
  match webLoop dom items none [] false with
  | .ok (_, all, found) => !found && !all.isEmpty
  | .error _ => false

/-- A well-formed domain record as the host application serves them:
`\x7b"displayName": <string>, "domainId": <value>\x7d`. -/
def mkRec (p : String × JVal) : JVal :=
  .obj [("displayName", .str p.1), ("domainId", p.2)]

/-- A list of well-formed domain records. -/
def mkRecs (recs : List (String × JVal)) : List JVal :=
  recs.map mkRec

/-- The records whose display name equals the target domain exactly. -/
def exactMatches (dom : String) (recs : List (String × JVal)) :
    List (String × JVal) :=
  recs.filter (fun p => p.1 == dom)

/-- The records whose display name classifies as primary or subdomain. -/
def relMatches (dom : String) (recs : List (String × JVal)) :
    List (String × JVal) :=
  recs.filter (fun p => p.1 == dom || strEndsWith p.1 ("." ++ dom))

/-- The ids (normalized to strings) of the matching records, in discovery
order: the value `ALL_WEB_IDS` ends up with. -/
def matchedIds (dom : String) (recs : List (String × JVal)) : List String :=
  (relMatches dom recs).map (fun p => pyStr p.2)

/-- Whether some record matches the target domain exactly. -/
def hasExact (dom : String) (recs : List (String × JVal)) : Bool :=
  recs.any (fun p => p.1 == dom)

/-- Records whose display name ends with `"." ++ dom`: the subdomain class. -/
def subMatches (dom : String) (recs : List (String × JVal)) :
    List (String × JVal) :=
  recs.filter (fun p => strEndsWith p.1 ("." ++ dom))

/-- The value `MAIN_WEB_ID` holds after the loop, given it held `m`
before: each exact match overwrites it, so the last exact match wins and
otherwise it is untouched. -/
def mainAfter (dom : String) : List (String × JVal) → Option String → Option String
  | [], m => m
  | p :: t, m => if p.1 == dom then mainAfter dom t (some (pyStr p.2)) else mainAfter dom t m

/-! ### Structural lemmas about the web-id resolution loop -/

theorem webLoop_cons (dom n : String) (v : JVal) (rest : List JVal)
    (m : Option String) (a : List String) (f : Bool) :
    webLoop dom (mkRec (n, v) :: rest) m a f =
      if n == dom then webLoop dom rest (some (pyStr v)) (a ++ [pyStr v]) true
      else if strEndsWith n ("." ++ dom) then webLoop dom rest m (a ++ [pyStr v]) f
      else webLoop dom rest m a f := rfl

theorem matchedIds_cons (dom : String) (p : String × JVal)
    (t : List (String × JVal)) :
    matchedIds dom (p :: t) =
      if p.1 == dom || strEndsWith p.1 ("." ++ dom)
      then pyStr p.2 :: matchedIds dom t else matchedIds dom t := by
  simp only [matchedIds, relMatches, List.filter_cons]
  by_cases h : (p.1 == dom || strEndsWith p.1 ("." ++ dom)) = true
  · rw [if_pos h, if_pos h, List.map_cons]
  · rw [if_neg h, if_neg h]

theorem hasExact_cons (dom : String) (p : String × JVal)
    (t : List (String × JVal)) :
    hasExact dom (p :: t) = ((p.1 == dom) || hasExact dom t) := by
  simp [hasExact]

theorem webLoop_mkRecs (dom : String) :
    ∀ (recs : List (String × JVal)) (m : Option String) (a : List String) (f : Bool),
      webLoop dom (mkRecs recs) m a f =
        .ok (mainAfter dom recs m, a ++ matchedIds dom recs, f || hasExact dom recs) := by
  intro recs
  induction recs with
  | nil =>
    intro m a f
    simp [mkRecs, webLoop, mainAfter, matchedIds, relMatches, hasExact]
  | cons p t ih =>
    intro m a f
    obtain ⟨n, v⟩ := p
    show webLoop dom (mkRec (n, v) :: mkRecs t) m a f = _
    rw [webLoop_cons, matchedIds_cons, hasExact_cons]
    by_cases hn : (n == dom) = true
    · rw [if_pos hn, ih]
      simp only [mainAfter, hn, if_pos, Bool.true_or, Bool.or_true]
      rw [List.append_assoc]
      simp
    · rw [if_neg hn]
      simp only [hn, Bool.false_or]
      by_cases hs : strEndsWith n ("." ++ dom) = true
      · rw [if_pos hs, ih]
        simp only [mainAfter, hn, if_neg, Bool.false_eq_true, hs, if_pos]
        rw [List.append_assoc]
        simp
      · rw [if_neg hs, ih]
        simp [mainAfter, hn, hs]

theorem mainAfter_of_no_exact (dom : String) :
    ∀ (recs : List (String × JVal)) (m : Option String),
      exactMatches dom recs = [] → mainAfter dom recs m = m := by
  intro recs
  induction recs with
  | nil => intro m _; rfl
  | cons p t ih =>
    intro m h
    simp only [exactMatches, List.filter_cons] at h
    by_cases hp : (p.1 == dom) = true
    · simp [hp] at h
    · rw [if_neg hp] at h
      simp only [mainAfter, hp, Bool.false_eq_true, if_neg]
      exact ih m h

theorem mainAfter_of_single_exact (dom : String) :
    ∀ (recs : List (String × JVal)) (r : String × JVal) (m : Option String),
      exactMatches dom recs = [r] → mainAfter dom recs m = some (pyStr r.2) := by
  intro recs
  induction recs with
  | nil => intro r m h; simp [exactMatches] at h
  | cons p t ih =>
    intro r m h
    simp only [exactMatches, List.filter_cons] at h
    by_cases hp : (p.1 == dom) = true
    · rw [if_pos hp, List.cons_eq_cons] at h
      obtain ⟨hpr, ht⟩ := h
      subst hpr
      simp only [mainAfter, hp, if_pos]
      exact mainAfter_of_no_exact dom t (some (pyStr p.2)) ht
    · rw [if_neg hp] at h
      simp only [mainAfter, hp, Bool.false_eq_true, if_neg]
      exact ih r m h

theorem mainAfter_mem (dom : String) :
    ∀ (recs : List (String × JVal)) (m : Option String) (x : String),
      mainAfter dom recs m = some x → x ∈ matchedIds dom recs ∨ m = some x := by
  intro recs
  induction recs with
  | nil => intro m x h; right; exact h
  | cons p t ih =>
    intro m x h
    simp only [mainAfter] at h
    rw [matchedIds_cons]
    by_cases hp : (p.1 == dom) = true
    · rw [if_pos hp] at h
      rw [if_pos (by rw [hp, Bool.true_or])]
      rcases ih _ _ h with hmem | heq
      · exact Or.inl (List.mem_cons_of_mem _ hmem)
      · rw [Option.some_inj] at heq
        exact Or.inl (heq ▸ List.mem_cons_self _ _)
    · rw [if_neg hp] at h
      rcases ih _ _ h with hmem | heq
      · left
        by_cases hs : strEndsWith p.1 ("." ++ dom) = true
        · rw [if_pos (by rw [hs, Bool.or_true])]
          exact List.mem_cons_of_mem _ hmem
        · rw [if_neg (by simp [hp, hs])]
          exact hmem
      · right; exact heq

theorem mainAfter_isSome_of_hasExact (dom : String) :
    ∀ (recs : List (String × JVal)) (m : Option String),
      hasExact dom recs = true → ∃ x, mainAfter dom recs m = some x := by
  intro recs
  induction recs with
  | nil => intro m h; simp [hasExact] at h
  | cons p t ih =>
    intro m h
    simp only [mainAfter]
    by_cases hp : (p.1 == dom) = true
    · rw [if_pos hp]
      clear h ih
      induction t generalizing p with
      | nil => exact ⟨pyStr p.2, rfl⟩
      | cons q t iht =>
        simp only [mainAfter]
        by_cases hq : (q.1 == dom) = true
        · rw [if_pos hq]; exact iht q hq
        · rw [if_neg hq]; exact iht p hp
    · rw [if_neg hp]
      apply ih
      rw [hasExact_cons] at h
      simpa [hp] using h

/-- Full characterization of `resolveWebIds` on well-formed records. -/
theorem resolveWebIds_mkRecs (dom : String) (recs : List (String × JVal)) :
    resolveWebIds dom (mkRecs recs) =
      if hasExact dom recs then
        .ok ((mainAfter dom recs none).getD "", matchedIds dom recs)
      else
        match matchedIds dom recs with
        | a :: t => .ok (a, a :: t)
        | [] => .error .domainNotFound := by
  rw [resolveWebIds, webLoop_mkRecs]
  simp only [List.nil_append, Bool.false_or]
  by_cases h : hasExact dom recs = true
  · rw [h, if_pos rfl, if_pos rfl]
  · rw [Bool.not_eq_true] at h
    rw [h, if_neg (by simp), if_neg (by simp)]
    cases hmi : matchedIds dom recs <;> rfl

/-- Same shape for the fallback-branch indicator. -/
theorem webFallbackTaken_mkRecs (dom : String) (recs : List (String × JVal)) :
    webFallbackTaken dom (mkRecs recs) =
      (!hasExact dom recs && !(matchedIds dom recs).isEmpty) := by
  rw [webFallbackTaken, webLoop_mkRecs]
  simp

theorem no_exact_forall {dom : String} {recs : List (String × JVal)}
    (h : exactMatches dom recs = []) : ∀ p ∈ recs, (p.1 == dom) = false := by
  intro p hp
  by_contra hne
  rw [Bool.not_eq_false] at hne
  have hmem : p ∈ exactMatches dom recs := List.mem_filter.mpr ⟨hp, hne⟩
  rw [h] at hmem
  exact absurd hmem (List.not_mem_nil p)

theorem hasExact_false_of_no_exact {dom : String} {recs : List (String × JVal)}
    (h : exactMatches dom recs = []) : hasExact dom recs = false := by
  by_contra hne
  rw [Bool.not_eq_false, hasExact, List.any_eq_true] at hne
  obtain ⟨p, hp, hpd⟩ := hne
  rw [no_exact_forall h p hp] at hpd
  exact Bool.false_ne_true hpd

theorem hasExact_true_of_single {dom : String} {recs : List (String × JVal)}
    {r : String × JVal} (h : exactMatches dom recs = [r]) :
    hasExact dom recs = true := by
  have hmem : r ∈ exactMatches dom recs := h ▸ List.mem_singleton.mpr rfl
  obtain ⟨hin, hpred⟩ := List.mem_filter.mp hmem
  rw [hasExact, List.any_eq_true]
  exact ⟨r, hin, hpred⟩

theorem relMatches_of_no_exact {dom : String} {recs : List (String × JVal)}
    (h : exactMatches dom recs = []) :
    relMatches dom recs = subMatches dom recs := by
  apply List.filter_congr
  intro p hp
  rw [no_exact_forall h p hp, Bool.false_or]

/-! ### Claims C1, C2, C3 about the primary/fallback policy -/

/-- C1: for every discovered domain list containing an entry whose display
name equals the target domain exactly, the resolver never takes the
subdomain-fallback branch, and (when that entry is the one exact match)
`MAIN_WEB_ID` is set to that entry's id normalized to string, with
`ALL_WEB_IDS` collecting every match in discovery order. -/
theorem C1_exact_primary (dom : String) (recs : List (String × JVal)) :
    ((∃ r ∈ recs, r.1 = dom) → webFallbackTaken dom (mkRecs recs) = false)
    ∧ (∀ r, exactMatches dom recs = [r] →
        resolveWebIds dom (mkRecs recs) = .ok (pyStr r.2, matchedIds dom recs)
        ∧ webFallbackTaken dom (mkRecs recs) = false) := by
  have hfb : ∀ hx : hasExact dom recs = true,
      webFallbackTaken dom (mkRecs recs) = false := by
    intro hx
    rw [webFallbackTaken_mkRecs, hx]
    rfl
  constructor
  · rintro ⟨r, hr, hrd⟩
    apply hfb
    rw [hasExact, List.any_eq_true]
    exact ⟨r, hr, beq_iff_eq.mpr hrd⟩
  · intro r hr
    have hx : hasExact dom recs = true := hasExact_true_of_single hr
    refine ⟨?_, hfb hx⟩
    rw [resolveWebIds_mkRecs, hx, if_pos rfl,
      mainAfter_of_single_exact dom recs r none hr]
    rfl

/-- C1 witness at the spec's scenario-A record list. -/
theorem C1_exact_primary_witness :
    resolveWebIds "example.com"
        (mkRecs [("example.com", .num 101), ("blog.example.com", .num 102),
          ("other.com", .num 999)]) =
      .ok ("101", ["101", "102"])
    ∧ webFallbackTaken "example.com"
        (mkRecs [("example.com", .num 101), ("blog.example.com", .num 102),
          ("other.com", .num 999)]) = false := by
  have h := (C1_exact_primary "example.com"
    [("example.com", .num 101), ("blog.example.com", .num 102),
      ("other.com", .num 999)]).2
    ("example.com", .num 101) (by rfl)
  exact ⟨h.1.trans (by rfl), h.2⟩

/-- C2: for every discovered domain list with no exact display-name match
but at least one subdomain match, `MAIN_WEB_ID` becomes the id of the
first subdomain match in discovery order (and `ALL_WEB_IDS` lists every
subdomain id in discovery order). -/
theorem C2_first_subdomain_fallback (dom : String) (recs : List (String × JVal))
    (r : String × JVal) (rest : List (String × JVal))
    (hno : exactMatches dom recs = [])
    (hsub : subMatches dom recs = r :: rest) :
    resolveWebIds dom (mkRecs recs) =
      .ok (pyStr r.2, (r :: rest).map (fun p => pyStr p.2)) := by
  have hx : hasExact dom recs = false := hasExact_false_of_no_exact hno
  have hmi : matchedIds dom recs = (r :: rest).map (fun p => pyStr p.2) := by
    rw [matchedIds, relMatches_of_no_exact hno, hsub]
  rw [resolveWebIds_mkRecs, hx]
  simp only [Bool.false_eq_true, hmi, List.map_cons]
  rw [if_neg not_false]

/-- C2 witness at the spec's scenario-B record list. -/
theorem C2_first_subdomain_fallback_witness :
    resolveWebIds "example.com" (mkRecs [("blog.example.com", .num 102)]) =
      .ok ("102", ["102"]) := by
  have h := C2_first_subdomain_fallback "example.com"
    [("blog.example.com", .num 102)] ("blog.example.com", .num 102) []
    (by rfl) (by rfl)
  exact h.trans (by rfl)

/-- C3: for every discovered domain list with neither an exact nor a
subdomain match, resolution fails with the domain-not-found error (the
spec's `DomainNotFoundError`), so no `(MAIN_WEB_ID, ALL_WEB_IDS)` pair is
produced as a valid result. -/
theorem C3_domain_not_found (dom : String) (recs : List (String × JVal))
    (hno : exactMatches dom recs = [])
    (hsub : subMatches dom recs = []) :
    resolveWebIds dom (mkRecs recs) = .error .domainNotFound := by
  have hx : hasExact dom recs = false := hasExact_false_of_no_exact hno
  have hmi : matchedIds dom recs = [] := by
    rw [matchedIds, relMatches_of_no_exact hno, hsub, List.map_nil]
  rw [resolveWebIds_mkRecs, hx]
  simp only [Bool.false_eq_true, hmi]
  rw [if_neg not_false]

/-- C3 witness at the spec's scenario-C record list. -/
theorem C3_domain_not_found_witness :
    resolveWebIds "example.com" (mkRecs [("other.com", .num 999)]) =
      .error .domainNotFound :=
  C3_domain_not_found "example.com" [("other.com", .num 999)] (by rfl) (by rfl)

/-! ### Claim C5: the primary-membership invariant -/

/-- C5 (counterexample to the claim as stated): with an exact match that
is discovered after a subdomain match, the resolution succeeds, the
primary id is `"101"`, but the first element of `ALL_WEB_IDS` is the
subdomain id `"102"`: the primary is not the first element of the ordered
id set even though an exact match exists. -/
theorem C5_counterexample :
    resolveWebIds "example.com"
        (mkRecs [("blog.example.com", .num 102), ("example.com", .num 101)]) =
      .ok ("101", ["102", "101"])
    ∧ ["102", "101"].head? ≠ some "101" := by
  constructor
  · rfl
  · decide

/-- C5 (amended): after every successful web-id resolution the primary id
is a member of the ordered id set; it is the set's first element in the
fallback case, and in the exact-match case when the unique exact match is
the first matching record in discovery order (the set is in discovery
order, so a subdomain discovered earlier precedes the primary). -/
theorem C5_amended_membership (dom : String) (recs : List (String × JVal))
    (m : String) (all : List String)
    (h : resolveWebIds dom (mkRecs recs) = .ok (m, all)) :
    m ∈ all
    ∧ (exactMatches dom recs = [] → all.head? = some m)
    ∧ (∀ r, exactMatches dom recs = [r] → (relMatches dom recs).head? = some r →
        all.head? = some m) := by
  rw [resolveWebIds_mkRecs] at h
  by_cases hx : hasExact dom recs = true
  · rw [hx, if_pos rfl] at h
    obtain ⟨x, hxm⟩ := mainAfter_isSome_of_hasExact dom recs none hx
    rw [hxm] at h
    rw [Except.ok.injEq, Prod.mk.injEq] at h
    obtain ⟨hm, hall⟩ := h
    have hmem : x ∈ matchedIds dom recs := by
      rcases mainAfter_mem dom recs none x hxm with hmem | habs
      · exact hmem
      · exact absurd habs (by simp)
    refine ⟨?_, ?_, ?_⟩
    · rw [← hall, ← hm]
      exact hmem
    · intro hno
      rw [hasExact_false_of_no_exact hno] at hx
      exact absurd hx Bool.false_ne_true
    · intro r hr hhead
      have hxr : mainAfter dom recs none = some (pyStr r.2) :=
        mainAfter_of_single_exact dom recs r none hr
      rw [hxm, Option.some_inj] at hxr
      rw [← hall, ← hm, hxr, matchedIds, List.head?_map, hhead]
      rfl
  · rw [Bool.not_eq_true] at hx
    rw [hx, if_neg (by simp)] at h
    cases hmi : matchedIds dom recs with
    | nil => rw [hmi] at h; exact absurd h (by simp)
    | cons a t =>
      rw [hmi] at h
      rw [Except.ok.injEq, Prod.mk.injEq] at h
      obtain ⟨hm, hall⟩ := h
      subst hm
      refine ⟨?_, fun _ => ?_, fun r hr _ => ?_⟩
      · rw [← hall]; exact List.mem_cons_self _ _
      · rw [← hall]; rfl
      · rw [hasExact_true_of_single hr] at hx
        exact absurd hx (by simp)

/-- C5 witness: the amended theorem applied at scenario A. -/
theorem C5_amended_membership_witness :
    "101" ∈ ["101", "102"] ∧ (["101", "102"] : List String).head? = some "101" := by
  have h := C5_amended_membership "example.com"
    [("example.com", .num 101), ("blog.example.com", .num 102)]
    "101" ["101", "102"] (by rfl)
  exact ⟨h.1, h.2.2 ("example.com", .num 101) (by rfl) (by rfl)⟩

/-! ### Claim C4: shape handling of the embedded payload -/

/-- C4: the extractor is not shape-invariant.  With identical records, the
depth the code actually handles (`data.data.data`) yields the domain
list, but the documented shallower placement (`data.data`, i.e. the
payload's `data` field holding the list directly) raises an
`AttributeError` (`.get` on a list, line 221 of `src/main.py`) before the
`isinstance` fallback of lines 223-224 can run; the intended fallback
never fires.  Evaluated at a concrete one-record list. -/
theorem C4_shape_divergence :
    get_web_internal_ids "example.com"
        (.obj [("data", .obj [("data", .obj [("data",
          .list (mkRecs [("example.com", .num 101)]))])])]) =
      .ok ("101", ["101"])
    ∧ get_web_internal_ids "example.com"
        (.obj [("data", .obj [("data",
          .list (mkRecs [("example.com", .num 101)]))])]) =
      .error .attributeError
    ∧ get_web_internal_ids "example.com"
        (.obj [("data", .list (mkRecs [("example.com", .num 101)]))]) =
      .error .attributeError := by
  refine ⟨rfl, rfl, rfl⟩

/-- The `isinstance` fallback of lines 223-224 is dead code: extraction
can only succeed when the deep lookup (`level2.get("data")`, line 221)
itself already produced the list.  Whenever the fallback is consulted,
the shallower lookup re-returns the dict `level2` that held the non-list,
which itself is not a list, so the run ends in `structureMismatch`. -/
theorem extract_succeeds_only_deep (data_obj : JVal) (xs : List JVal)
    (h : extractDomainsList data_obj = .ok xs) :
    ∃ g lv2 : JVal,
      pyGet data_obj "data" (.obj []) = .ok g ∧
      pyGet (if truthy g then g else data_obj) "data" (.obj []) = .ok lv2 ∧
      pyGet lv2 "data" (.list []) = .ok (.list xs) := by
  rw [extractDomainsList] at h
  split at h
  · exact absurd h (by simp)
  · next g hg =>
    refine ⟨g, ?_⟩
    simp only at h
    split at h
    · exact absurd h (by simp)
    · next lv2 h2 =>
      refine ⟨lv2, hg, h2, ?_⟩
      split at h
      · exact absurd h (by simp)
      · next dl0 h3 =>
        split at h
        · exact absurd h (by simp)
        · next dl1 h4 =>
          cases dl1 with
          | list ys =>
            simp only [Except.ok.injEq] at h
            cases h
            split at h4
            · -- deep value was already the list
              next hPL =>
              rw [Except.ok.injEq] at h4
              rw [h4] at h3
              exact h3
            · -- fallback was consulted: impossible to reach `.ok`
              next hPL =>
              exfalso
              cases lv2 with
              | obj fs2 =>
                cases hl1 : (if truthy g then g else data_obj) with
                | obj fs1 =>
                  rw [hl1, pyGet, Except.ok.injEq] at h2 h4
                  cases hlook : fs1.lookup "data" with
                  | some w =>
                    rw [hlook, Option.getD_some] at h2 h4
                    rw [h2] at h4
                    exact JVal.noConfusion h4
                  | none =>
                    rw [hlook, Option.getD_none] at h2 h4
                    rw [← h2, pyGet] at h3
                    simp only [List.lookup, Option.getD_none, Except.ok.injEq] at h3
                    rw [← h3] at hPL
                    exact hPL (by simp [isPyList])
                | null => rw [hl1] at h2; simp [pyGet] at h2
                | bool b => rw [hl1] at h2; simp [pyGet] at h2
                | num n => rw [hl1] at h2; simp [pyGet] at h2
                | str t => rw [hl1] at h2; simp [pyGet] at h2
                | list zs => rw [hl1] at h2; simp [pyGet] at h2
              | null => simp [pyGet] at h3
              | bool b => simp [pyGet] at h3
              | num n => simp [pyGet] at h3
              | str t => simp [pyGet] at h3
              | list zs => simp [pyGet] at h3
          | null => exact absurd h (by simp)
          | bool b => exact absurd h (by simp)
          | num n => exact absurd h (by simp)
          | str t => exact absurd h (by simp)
          | obj fs => exact absurd h (by simp)

/-! ### Claim C6: mail-account resolution (`get_mail_internal_id`) -/

/-- One `tr` row of the mail-account listing: its rendered text content
and the `value` attributes of its `input[type=checkbox]` elements
(`none` = checkbox present but without a `value` attribute). -/
structure MailRow where
  text : String
  checkboxes : List (Option String)
deriving Repr, DecidableEq

/-- Errors `get_mail_internal_id` can produce.  `mailIdNotFound` is the
spec's `MailIdNotFoundError` ("Mail ID not found"); `emptyId` is the
"could not extract ID from checkbox value" raise; the other two model
Playwright failures when the checkbox locator resolves to zero or to more
than one element. -/
inductive MailErr where
  | mailIdNotFound
  | emptyId
  | locatorTimeout
  | strictModeViolation
deriving Repr, DecidableEq

/-- ASCII lowercasing of one character (enough for host/domain names). -/
def lowerChar (c : Char) : Char :=
  if 'A' ≤ c ∧ c ≤ 'Z' then Char.ofNat (c.toNat + 32) else c

/-- Case-insensitive form of a string, over its character list. -/
def lowerStr (s : String) : List Char :=
  s.toList.map lowerChar

/-- Playwright `filter(has_text=needle)`: case-insensitive substring
match on the row's text content. -/
def hasText (content needle : String) : Bool :=
  listHasInfix (lowerStr needle) (lowerStr content)

/-- `get_mail_internal_id` (lines 152-172 of `src/main.py`) over the rows
of the mail-settings listing:

```
row = page.locator("tr").filter(has_text=NC_DOMAIN)
if await row.count() == 0: raise Exception("Mail ID not found")
checkbox = row.locator("input[type='checkbox']")
MAIL_ID = await checkbox.get_attribute("value")
if not MAIL_ID: raise Exception("Found mail row but could not extract ID ...")
```

`row.count() == 0` means no row contains the domain; `get_attribute` on a
locator requires it to resolve to exactly one element (strict mode), and
the matched checkbox's missing/empty `value` triggers the second raise. -/
def get_mail_internal_id (dom : String) (rows : List MailRow) :
    Except MailErr String :=
  let matched := rows.filter (fun r => hasText r.text dom)
  if matched.isEmpty then .error .mailIdNotFound
  else
    match (matched.map MailRow.checkboxes).flatten with
    | [] => .error .locatorTimeout
    | [v] =>
      match v with
      | some s => if s == "" then .error .emptyId else .ok s
      | none => .error .emptyId
    | _ :: _ :: _ => .error .strictModeViolation

/-- C6 counterexample: a listing whose only row contains the target
domain merely as a substring of another name (`myexample.com`).  The
claim predicts `MailIdNotFoundError` (no row matches `example.com`
exactly); the code happily returns that row's checkbox value, because
`has_text` is substring matching. -/
theorem C6_counterexample :
    get_mail_internal_id "example.com" [⟨"  myexample.com  ", [some "555"]⟩] =
      .ok "555"
    ∧ ("  myexample.com  " == "example.com") = false := by
  constructor
  · rfl
  · decide

/-- C6 (amended): mail-account resolution selects the rows whose content
contains the configured target domain as a case-insensitive substring;
if no row contains it, it fails with `MailIdNotFoundError` and never
falls back to any other row; when exactly one row matches and its
selection control carries a nonempty `value`, that value becomes
`MAIL_ID`. -/
theorem C6_amended_mail_resolution (dom : String) (rows : List MailRow) :
    ((∀ r ∈ rows, hasText r.text dom = false) →
      get_mail_internal_id dom rows = .error .mailIdNotFound)
    ∧ (∀ (t : String) (v : String),
        rows.filter (fun r => hasText r.text dom) = [⟨t, [some v]⟩] →
        (v == "") = false →
        get_mail_internal_id dom rows = .ok v) := by
  constructor
  · intro hall
    rw [get_mail_internal_id]
    have hf : rows.filter (fun r => hasText r.text dom) = [] := by
      rw [List.filter_eq_nil_iff]
      intro r hr
      rw [hall r hr]
      exact Bool.false_ne_true
    rw [hf]
    rfl
  · intro t v hone hv
    rw [get_mail_internal_id, hone]
    simp only [List.isEmpty_cons, List.map_cons, List.map_nil, List.flatten,
      List.append_nil, Bool.false_eq_true, if_neg, hv]
    rfl

/-- C6 witness: the amended theorem applied at two concrete listings. -/
theorem C6_amended_mail_resolution_witness :
    get_mail_internal_id "example.com" [⟨"unrelated.org", [some "7"]⟩] =
      .error .mailIdNotFound
    ∧ get_mail_internal_id "example.com"
        [⟨"unrelated.org", [some "7"]⟩, ⟨"example.com", [some "41"]⟩] =
      .ok "41" := by
  constructor
  · exact (C6_amended_mail_resolution "example.com"
      [⟨"unrelated.org", [some "7"]⟩]).1 (by decide)
  · exact (C6_amended_mail_resolution "example.com"
      [⟨"unrelated.org", [some "7"]⟩, ⟨"example.com", [some "41"]⟩]).2
      "example.com" "41" (by decide) (by decide)

/-! ### Claim C8: certificate upload (`upload_certificate`) -/

/-- The page state `upload_certificate` (lines 261-287) interacts with:
whether the target address contains "list" (line 265), whether the
"Add SSL/TLS Certificate" control is visible (line 268), whether each
form element the code fills/clicks is present (a missing element makes
the corresponding Playwright action time out and raise), and whether the
success-confirmation text renders within the bounded wait (line 285). -/
structure UploadPage where
  urlHasList : Bool
  addBtnVisible : Bool
  nameField : Bool
  keyField : Bool
  certField : Bool
  submitBtn : Bool
  successMsg : Bool
deriving Repr, DecidableEq

/-- Deployment-step failure: a required element did not appear in time. -/
inductive DeployErr where
  | elementTimeout
deriving Repr, DecidableEq

/-- `upload_certificate` outcome model: `.ok warned` means the upload ran
to completion, with `warned = true` exactly when the success message was
absent and the `except:` branch of lines 286-287 logged the warning and
continued.  The add-button step never raises: `is_visible` returns a
Bool, and the click only happens when it returned true. -/
def upload_certificate (p : UploadPage) : Except DeployErr Bool :=
  if !p.nameField then .error .elementTimeout
  else if !p.keyField then .error .elementTimeout
  else if !p.certField then .error .elementTimeout
  else if !p.submitBtn then .error .elementTimeout
  else .ok (!p.successMsg)

/-- C8: absence of the success confirmation is never fatal.  If an upload
runs to completion on some page state, then on the same state with the
confirmation message absent it still completes normally (`.ok`), with the
warning logged (`warned = true`), and the run proceeds. -/
theorem C8_confirmation_not_fatal (p : UploadPage) (w : Bool)
    (h : upload_certificate p = .ok w) :
    upload_certificate
      ⟨p.urlHasList, p.addBtnVisible, p.nameField, p.keyField, p.certField,
        p.submitBtn, false⟩ = .ok true := by
  rw [upload_certificate] at h ⊢
  by_cases h1 : p.nameField = true
  · by_cases h2 : p.keyField = true
    · by_cases h3 : p.certField = true
      · by_cases h4 : p.submitBtn = true
        · simp [h1, h2, h3, h4]
        · simp [h1, h2, h3, h4] at h
      · simp [h1, h2, h3] at h
    · simp [h1, h2] at h
  · simp [h1] at h

/-- C8 witness: a fully present page without the confirmation message. -/
theorem C8_confirmation_not_fatal_witness :
    upload_certificate ⟨true, true, true, true, true, true, false⟩ = .ok true :=
  C8_confirmation_not_fatal ⟨true, true, true, true, true, true, true⟩ false rfl

/-! ### Claim C9: the Authenticator's second-factor branch (`handle_login`) -/

/-- Post-login page state inspected on line 72 of `src/main.py`:
the resulting address and the page content. -/
structure LoginState where
  url : String
  content : String
deriving Repr, DecidableEq

/-- The branch condition of line 72: `"start.php" in page.url or
"verification" in await page.content()` — the second-factor challenge
marker. -/
def twoFaMarker (st : LoginState) : Bool :=
  strContains st.url "start.php" || strContains st.content "verification"

/-- `handle_login` (lines 62-80), reduced to its observable decision:
returns the time-based code it fills into the TAN field (computed from
the shared secret via `pyotp.TOTP(...).now()`, passed in here as
`totpNow`), or `none` when no challenge marker is present and the
function simply returns, treating the session as authenticated. -/
def handle_login (st : LoginState) (totpNow : String) : Option String :=
  if twoFaMarker st then some totpNow else none

/-- C9: when the second-factor challenge marker is absent from both the
post-login address and the page content, the Authenticator completes
without computing or submitting any time-based code. -/
theorem C9_no_marker_no_code (st : LoginState) (totpNow : String)
    (hurl : strContains st.url "start.php" = false)
    (hcontent : strContains st.content "verification" = false) :
    handle_login st totpNow = none := by
  rw [handle_login, twoFaMarker, hurl, hcontent]
  rfl

/-- C9 witness: a landing page with no challenge marker. -/
theorem C9_no_marker_no_code_witness :
    handle_login ⟨"https://www.customercontrolpanel.de/index.php", "Welcome"⟩
      "123456" = none :=
  C9_no_marker_no_code _ _ (by decide) (by decide)

/-! ### Claim C10: host-id capture in `process_sso_button` -/

/-- Splits a character list at the first occurrence of `marker`,
returning the parts before and after it, or `none` if absent. -/
def splitFirstMarker (marker : List Char) : List Char → Option (List Char × List Char)
  | [] => none
  | a :: t =>
    if listStartsWith (a :: t) marker then some ([], (a :: t).drop marker.length)
    else
      match splitFirstMarker marker t with
      | some (pre, post) => some (a :: pre, post)
      | none => none

/-- A character allowed in a URL scheme after the leading letter. -/
def isSchemeChar (c : Char) : Bool :=
  c.isAlphanum || c == '+' || c == '-' || c == '.'

/-- The part of a character list after its last `'@'` (the whole list if
none): strips the userinfo part of a netloc. -/
def afterLastAt (l : List Char) : List Char :=
  (l.reverse.takeWhile (fun c => !(c == '@'))).reverse

/-- Model of Python stdlib `urlparse(url).hostname` (an out-of-repo
collaborator), restricted to what line 108-109 of `src/main.py` needs: a
netloc exists only when the input (or the remainder after a valid
`scheme:`) begins with `//`; within it the hostname is what remains
after dropping userinfo (after the last `@`) and the `:port`, lowercased.
Python returns `None` both when no netloc exists and when the host part
is empty; line 111's `if hostname:` guard treats those alike, so both
are `none` here.  IPv6 bracket syntax is out of scope. -/
def urlHostname (url : String) : Option String :=
  let cs := url.toList
  let rest? : Option (List Char) :=
    if listStartsWith cs ['/', '/'] then some (cs.drop 2)
    else
      match splitFirstMarker [':', '/', '/'] cs with
      | some (scheme, post) =>
        match scheme with
        | [] => none
        | c0 :: _ => if c0.isAlpha && scheme.all isSchemeChar then some post else none
      | none => none
  match rest? with
  | none => none
  | some r =>
    let netloc := r.takeWhile (fun c => !(c == '/') && !(c == '?') && !(c == '#'))
    let host := (afterLastAt netloc).takeWhile (fun c => !(c == ':'))
    match host with
    | [] => none
    | _ :: _ => some (String.mk (host.map lowerChar))

/-- Lines 106-118 of `src/main.py`: the captured host identifier is the
first dot-separated label of the parsed hostname, and stays `None`
(wrapped in a logged error, not an exception) when no hostname parses. -/
def capture_host_id (url : String) : Option String :=
  match urlHostname url with
  | some h => some (String.mk (h.toList.takeWhile (fun c => !(c == '.'))))
  | none => none

/-- `process_sso_button` from the captured URL on (lines 103-130): record
the extracted host id, then run the subsystem's id extraction (which at
line 120-127 is `get_web_internal_ids` or `get_mail_internal_id`,
abstracted here as `subsystemExtract` receiving the captured id). -/
def process_sso_button {E A : Type} (url : String)
    (subsystemExtract : Option String → Except E A) :
    Except E (Option String × A) :=
  let extractedId := capture_host_id url
  match subsystemExtract extractedId with
  | .error e => .error e
  | .ok a => .ok (extractedId, a)

/-- C10: when no hostname parses from the new surface's address, the
handoff itself does not fail — the captured host id is left `none` and
the run proceeds into the subsystem's id extraction with that unset id
(failing only if the extraction itself fails). -/
theorem C10_unparseable_hostname_proceeds {E A : Type} (url : String)
    (h : urlHostname url = none)
    (subsystemExtract : Option String → Except E A) :
    process_sso_button url subsystemExtract =
      (subsystemExtract none).map (fun a => ((none : Option String), a)) := by
  rw [process_sso_button]
  have hc : capture_host_id url = none := by
    rw [capture_host_id, h]
  rw [hc]
  cases subsystemExtract none <;> rfl

/-- C10 witness: an address with no parseable hostname; the extraction
still runs, observing the unset id. -/
theorem C10_unparseable_hostname_proceeds_witness :
    process_sso_button "about:blank"
        (fun h => (Except.ok h.isNone : Except Unit Bool)) =
      .ok (none, true) := by
  rw [C10_unparseable_hostname_proceeds "about:blank" (by decide)]
  rfl

/-- Sanity check: a real handoff address yields the expected first label. -/
theorem capture_host_id_example :
    capture_host_id "https://vs123.webhosting.systems/smb/" = some "vs123" := by
  decide

/-! ### Claim C7: certificate naming (`main`, lines 333-334)

`cert_name = f"acme-\x7bNC_DOMAIN\x7d\x7bdate_str\x7d"` with
`date_str = datetime.now().strftime("%Y%m%d")`.  `datetime.now()` is the
timezone-naive **local** wall-clock time, so the date is the local
calendar date of the run, modelled by a clock holding UTC minutes since
the Unix epoch plus the host timezone offset.  `strftime("%Y%m%d")` is
modelled with the standard civil-from-days calendar algorithm and a
zero-padded decimal rendering. -/

/-- Little-endian decimal digits of `n` (with explicit fuel so that the
recursion is structural and kernel-reducible); `decDigits 0 = []`. -/
def decDigitsAux : Nat → Nat → List Nat
  | 0, _ => []
  | _ + 1, 0 => []
  | fuel + 1, n + 1 => ((n + 1) % 10) :: decDigitsAux fuel ((n + 1) / 10)

/-- Little-endian decimal digits of `n`. -/
def decDigits (n : Nat) : List Nat := decDigitsAux n n

/-- Value of a little-endian digit list. -/
def ofDec : List Nat → Nat
  | [] => 0
  | d :: l => d + 10 * ofDec l

theorem ofDec_decDigitsAux :
    ∀ (fuel n : Nat), n ≤ fuel → ofDec (decDigitsAux fuel n) = n := by
  intro fuel
  induction fuel with
  | zero =>
    intro n h
    have hz : n = 0 := Nat.le_zero.mp h
    subst hz
    rfl
  | succ f ih =>
    intro n h
    cases n with
    | zero => rfl
    | succ m =>
      have hlt : (m + 1) / 10 < m + 1 := Nat.div_lt_self (Nat.succ_pos m) (by norm_num)
      have hle : (m + 1) / 10 ≤ f := by omega
      show ofDec (((m + 1) % 10) :: decDigitsAux f ((m + 1) / 10)) = m + 1
      rw [ofDec, ih _ hle]
      omega

theorem decDigits_inj {a b : Nat} (h : decDigits a = decDigits b) : a = b := by
  have ha := ofDec_decDigitsAux a a le_rfl
  have hb := ofDec_decDigitsAux b b le_rfl
  rw [decDigits] at h
  rw [← ha, ← hb, h]
  rfl

theorem decDigitsAux_lt10 :
    ∀ (fuel n d : Nat), d ∈ decDigitsAux fuel n → d < 10 := by
  intro fuel
  induction fuel with
  | zero => intro n d h; exact absurd h (List.not_mem_nil d)
  | succ f ih =>
    intro n d h
    cases n with
    | zero => exact absurd h (List.not_mem_nil d)
    | succ m =>
      rcases List.mem_cons.mp h with h1 | h2
      · rw [h1]; exact Nat.mod_lt _ (by norm_num)
      · exact ih _ _ h2

theorem decDigitsAux_len_le :
    ∀ (fuel n k : Nat), n < 10 ^ k → (decDigitsAux fuel n).length ≤ k := by
  intro fuel
  induction fuel with
  | zero => intro n k _; exact Nat.zero_le k
  | succ f ih =>
    intro n k h
    cases n with
    | zero => exact Nat.zero_le k
    | succ m =>
      cases k with
      | zero => simp at h
      | succ j =>
        have hdiv : (m + 1) / 10 < 10 ^ j := by
          rw [Nat.div_lt_iff_lt_mul (by norm_num)]
          calc m + 1 < 10 ^ (j + 1) := h
            _ = 10 ^ j * 10 := by ring
        have := ih ((m + 1) / 10) j hdiv
        show (((m + 1) % 10) :: decDigitsAux f ((m + 1) / 10)).length ≤ j + 1
        rw [List.length_cons]
        omega

theorem decDigitsAux_len_ge :
    ∀ (fuel n k : Nat), 10 ^ k ≤ n → n ≤ fuel → k + 1 ≤ (decDigitsAux fuel n).length := by
  intro fuel
  induction fuel with
  | zero =>
    intro n k h1 h2
    have : 0 < 10 ^ k := Nat.pos_pow_of_pos k (by norm_num)
    omega
  | succ f ih =>
    intro n k h1 h2
    have hpos : 0 < 10 ^ k := Nat.pos_pow_of_pos k (by norm_num)
    cases n with
    | zero => omega
    | succ m =>
      show k + 1 ≤ (((m + 1) % 10) :: decDigitsAux f ((m + 1) / 10)).length
      rw [List.length_cons]
      cases k with
      | zero => omega
      | succ j =>
        have hdiv : 10 ^ j ≤ (m + 1) / 10 := by
          rw [Nat.le_div_iff_mul_le (by norm_num)]
          calc 10 ^ j * 10 = 10 ^ (j + 1) := by ring
            _ ≤ m + 1 := h1
        have hlt : (m + 1) / 10 < m + 1 := Nat.div_lt_self (Nat.succ_pos m) (by norm_num)
        have := ih ((m + 1) / 10) j hdiv (by omega)
        omega

/-- Big-endian decimal rendering of `n` as characters (`0` renders `[]`,
which the padding below turns into zeros; years/months/days here are
always positive). -/
def digitsChars (n : Nat) : List Char :=
  (decDigits n).reverse.map Nat.digitChar

theorem digitChar_inj_lt10 :
    ∀ a, a < 10 → ∀ b, b < 10 → Nat.digitChar a = Nat.digitChar b → a = b := by
  decide

theorem mapDigitChar_inj :
    ∀ (l1 l2 : List Nat), (∀ d ∈ l1, d < 10) → (∀ d ∈ l2, d < 10) →
      l1.map Nat.digitChar = l2.map Nat.digitChar → l1 = l2 := by
  intro l1
  induction l1 with
  | nil =>
    intro l2 _ _ h
    cases l2 with
    | nil => rfl
    | cons b t => exact absurd h (by simp)
  | cons a t ih =>
    intro l2 h1 h2 h
    cases l2 with
    | nil => exact absurd h (by simp)
    | cons b t2 =>
      simp only [List.map_cons, List.cons_eq_cons] at h
      obtain ⟨hab, ht⟩ := h
      have ha : a < 10 := h1 a (List.mem_cons_self a t)
      have hb : b < 10 := h2 b (List.mem_cons_self b t2)
      rw [digitChar_inj_lt10 a ha b hb hab,
        ih t2 (fun d hd => h1 d (List.mem_cons_of_mem a hd))
          (fun d hd => h2 d (List.mem_cons_of_mem b hd)) ht]

theorem digitsChars_inj {a b : Nat} (h : digitsChars a = digitsChars b) : a = b := by
  rw [digitsChars, digitsChars] at h
  have hrev := mapDigitChar_inj _ _
    (fun d hd => decDigitsAux_lt10 a a d (List.mem_reverse.mp hd))
    (fun d hd => decDigitsAux_lt10 b b d (List.mem_reverse.mp hd)) h
  exact decDigits_inj (List.reverse_inj.mp hrev)

theorem digitsChars_length (n : Nat) :
    (digitsChars n).length = (decDigits n).length := by
  rw [digitsChars, List.length_map, List.length_reverse]

/-- Civil date from `(era, day-of-era)`: the per-era core of the standard
days-to-Gregorian conversion used to model `strftime("%Y%m%d")`. -/
def civilOfEraDoe (era doe : Nat) : Nat × Nat × Nat :=
  let yoe := (doe - doe / 1460 + doe / 36524 - doe / 146096) / 365
  let y := yoe + era * 400
  let doy := doe - (365 * yoe + yoe / 4 - yoe / 100)
  let mp := (5 * doy + 2) / 153
  let d := doy - (153 * mp + 2) / 5 + 1
  let m := if mp < 10 then mp + 3 else mp - 9
  (if m ≤ 2 then y + 1 else y, m, d)

/-- Gregorian calendar date of a day count (days since 1970-01-01):
`(year, month, day)`. -/
def civilFromDays (z : Nat) : Nat × Nat × Nat :=
  civilOfEraDoe ((z + 719468) / 146097) ((z + 719468) % 146097)

/-- Inverse direction: day count of a civil date. -/
def daysFromCivil (y m d : Nat) : Nat :=
  let y' := if m ≤ 2 then y - 1 else y
  let era := y' / 400
  let yoe := y' % 400
  let doy := (153 * (if 2 < m then m - 3 else m + 9) + 2) / 5 + d - 1
  let doe := yoe * 365 + yoe / 4 - yoe / 100 + doy
  era * 146097 + doe - 719468

set_option maxHeartbeats 8000000 in
/-- The in-era bounds of the conversion: the year-of-era is below 400,
the day-of-year subtraction never truncates and stays within a year,
and the derived month-position and day are in calendar range. -/
theorem doe_facts (doe yoe s doy mp d : Nat) (h : doe < 146097)
    (hyoe : yoe = (doe - doe / 1460 + doe / 36524 - doe / 146096) / 365)
    (hs : s = 365 * yoe + yoe / 4 - yoe / 100)
    (hdoy : doy = doe - s)
    (hmp : mp = (5 * doy + 2) / 153)
    (hd : d = doy - (153 * mp + 2) / 5 + 1) :
    yoe < 400 ∧ s ≤ doe ∧ doy ≤ 365 ∧ 1 ≤ d ∧ d ≤ 31 ∧ mp ≤ 11 := by
  subst hd hmp hdoy hs
  have hy : yoe < 400 := by omega
  have hlo : 365 * yoe ≤ doe - doe / 1460 + doe / 36524 - doe / 146096 := by
    omega
  have hhi : doe - doe / 1460 + doe / 36524 - doe / 146096 < 365 * yoe + 365 := by
    omega
  clear hyoe
  have key : 365 * yoe + yoe / 4 - yoe / 100 ≤ doe ∧
      doe - (365 * yoe + yoe / 4 - yoe / 100) ≤ 365 := by
    interval_cases yoe <;> omega
  refine ⟨hy, key.1, key.2, ?_, ?_, ?_⟩ <;> omega

theorem roundtrip_core (era doe : Nat) (hdoe : doe < 146097) :
    daysFromCivil (civilOfEraDoe era doe).1 (civilOfEraDoe era doe).2.1
      (civilOfEraDoe era doe).2.2 = era * 146097 + doe - 719468 := by
  simp only [civilOfEraDoe, daysFromCivil]
  set yoe := (doe - doe / 1460 + doe / 36524 - doe / 146096) / 365 with hyoe
  set doy := doe - (365 * yoe + yoe / 4 - yoe / 100) with hdoy
  set mp := (5 * doy + 2) / 153 with hmp
  set dd := doy - (153 * mp + 2) / 5 + 1 with hdd
  obtain ⟨h1, h2, h3, h4, h5, h6⟩ :=
    doe_facts doe yoe (365 * yoe + yoe / 4 - yoe / 100) doy mp dd
      hdoe hyoe rfl hdoy hmp hdd
  have e1 : (yoe + era * 400) / 400 = era := by omega
  have e2 : (yoe + era * 400) % 400 = yoe := by omega
  by_cases hmp10 : mp < 10
  · have hm3 : ¬(mp + 3 ≤ 2) := by omega
    have hm3' : 2 < mp + 3 := by omega
    rw [if_pos hmp10, if_neg hm3, if_neg hm3, if_pos hm3', e1, e2]
    have hc : mp + 3 - 3 = mp := by omega
    rw [hc]
    omega
  · have hm9 : mp - 9 ≤ 2 := by omega
    have hm9' : ¬(2 < mp - 9) := by omega
    rw [if_neg hmp10, if_pos hm9, if_pos hm9, if_neg hm9', Nat.add_sub_cancel,
      e1, e2]
    have hc : mp - 9 + 9 = mp := by omega
    rw [hc]
    omega

theorem daysFromCivil_civilFromDays (z : Nat) :
    daysFromCivil (civilFromDays z).1 (civilFromDays z).2.1
      (civilFromDays z).2.2 = z := by
  rw [civilFromDays, roundtrip_core _ _ (Nat.mod_lt _ (by norm_num))]
  omega

theorem civilFromDays_inj {z1 z2 : Nat} (h : civilFromDays z1 = civilFromDays z2) :
    z1 = z2 := by
  have h1 := daysFromCivil_civilFromDays z1
  rw [h, daysFromCivil_civilFromDays z2] at h1
  exact h1.symm

theorem civilFromDays_bounds (z : Nat) :
    1000 ≤ (civilFromDays z).1 ∧ (civilFromDays z).2.1 < 100 ∧
      (civilFromDays z).2.2 < 100 := by
  rw [civilFromDays]
  set era := (z + 719468) / 146097 with hera
  set doe := (z + 719468) % 146097 with hdoe2
  have hdoe : doe < 146097 := by omega
  have hera4 : 4 ≤ era := by omega
  simp only [civilOfEraDoe]
  set yoe := (doe - doe / 1460 + doe / 36524 - doe / 146096) / 365 with hyoe
  set doy := doe - (365 * yoe + yoe / 4 - yoe / 100) with hdoy
  set mp := (5 * doy + 2) / 153 with hmp
  set dd := doy - (153 * mp + 2) / 5 + 1 with hdd
  obtain ⟨h1, h2, h3, h4, h5, h6⟩ :=
    doe_facts doe yoe (365 * yoe + yoe / 4 - yoe / 100) doy mp dd
      hdoe hyoe rfl hdoy hmp hdd
  refine ⟨?_, ?_, ?_⟩
  · split_ifs <;> omega
  · split_ifs <;> omega
  · omega

def leftPad (k : Nat) (l : List Char) : List Char :=
  List.replicate (k - l.length) '0' ++ l

/-- `strftime("%Y%m%d")` of the civil date of day count `z`: the year
zero-padded to at least four digits, month and day to two. -/
def formatYYYYMMDD (z : Nat) : String :=
  String.mk (leftPad 4 (digitsChars (civilFromDays z).1)
    ++ leftPad 2 (digitsChars (civilFromDays z).2.1)
    ++ leftPad 2 (digitsChars (civilFromDays z).2.2))

theorem leftPad_of_len_ge {k : Nat} {l : List Char} (h : k ≤ l.length) :
    leftPad k l = l := by
  rw [leftPad]
  have hz : k - l.length = 0 := by omega
  rw [hz, List.replicate_zero, List.nil_append]

theorem leftPad_length_of_le {k : Nat} {l : List Char} (h : l.length ≤ k) :
    (leftPad k l).length = k := by
  rw [leftPad, List.length_append, List.length_replicate]
  omega

theorem digitsChars_len_ge4 {n : Nat} (h : 1000 ≤ n) :
    4 ≤ (digitsChars n).length := by
  rw [digitsChars_length]
  have h10 : 10 ^ 3 ≤ n := by norm_num; omega
  exact decDigitsAux_len_ge n n 3 h10 le_rfl

theorem digitsChars_len_le2 {n : Nat} (h : n < 100) :
    (digitsChars n).length ≤ 2 := by
  rw [digitsChars_length]
  have h10 : n < 10 ^ 2 := by norm_num; omega
  exact decDigitsAux_len_le n n 2 h10

set_option maxRecDepth 8000 in
theorem pad2_inj :
    ∀ a, a < 100 → ∀ b, b < 100 →
      leftPad 2 (digitsChars a) = leftPad 2 (digitsChars b) → a = b := by
  decide

theorem formatYYYYMMDD_inj {z1 z2 : Nat}
    (h : formatYYYYMMDD z1 = formatYYYYMMDD z2) : z1 = z2 := by
  obtain ⟨hy1, hm1, hd1⟩ := civilFromDays_bounds z1
  obtain ⟨hy2, hm2, hd2⟩ := civilFromDays_bounds z2
  rw [formatYYYYMMDD, formatYYYYMMDD] at h
  replace h : leftPad 4 (digitsChars (civilFromDays z1).1)
        ++ leftPad 2 (digitsChars (civilFromDays z1).2.1)
        ++ leftPad 2 (digitsChars (civilFromDays z1).2.2) =
      leftPad 4 (digitsChars (civilFromDays z2).1)
        ++ leftPad 2 (digitsChars (civilFromDays z2).2.1)
        ++ leftPad 2 (digitsChars (civilFromDays z2).2.2) :=
    congrArg String.data h
  have hdlen : (leftPad 2 (digitsChars (civilFromDays z1).2.2)).length =
      (leftPad 2 (digitsChars (civilFromDays z2).2.2)).length := by
    rw [leftPad_length_of_le (digitsChars_len_le2 hd1),
      leftPad_length_of_le (digitsChars_len_le2 hd2)]
  obtain ⟨hAB, hD⟩ := List.append_inj' h hdlen
  have hmlen : (leftPad 2 (digitsChars (civilFromDays z1).2.1)).length =
      (leftPad 2 (digitsChars (civilFromDays z2).2.1)).length := by
    rw [leftPad_length_of_le (digitsChars_len_le2 hm1),
      leftPad_length_of_le (digitsChars_len_le2 hm2)]
  obtain ⟨hA, hM⟩ := List.append_inj' hAB hmlen
  rw [leftPad_of_len_ge (digitsChars_len_ge4 hy1),
    leftPad_of_len_ge (digitsChars_len_ge4 hy2)] at hA
  have hy : (civilFromDays z1).1 = (civilFromDays z2).1 := digitsChars_inj hA
  have hm : (civilFromDays z1).2.1 = (civilFromDays z2).2.1 :=
    pad2_inj _ hm1 _ hm2 hM
  have hd : (civilFromDays z1).2.2 = (civilFromDays z2).2.2 :=
    pad2_inj _ hd1 _ hd2 hD
  exact civilFromDays_inj (Prod.ext hy (Prod.ext hm hd))

structure Clock where
  utcMinutes : Nat
  tzOffsetMinutes : Int
deriving Repr, DecidableEq

def localDays (c : Clock) : Nat :=
  ((c.utcMinutes : Int) + c.tzOffsetMinutes).toNat / 1440

def utcDays (c : Clock) : Nat := c.utcMinutes / 1440

def strftime_Ymd (c : Clock) : String := formatYYYYMMDD (localDays c)

def cert_name (dom : String) (c : Clock) : String :=
  "acme-" ++ dom ++ strftime_Ymd c

def cert_name_utc_spec (dom : String) (c : Clock) : String :=
  "acme-" ++ dom ++ formatYYYYMMDD (utcDays c)

theorem str_data_inj {s t : String} (h : s.data = t.data) : s = t := by
  cases s
  cases t
  cases h
  rfl

theorem C7_counterexample :
    cert_name "example.com" ⟨1410, 120⟩ ≠ cert_name_utc_spec "example.com" ⟨1410, 120⟩
    ∧ cert_name "example.com" ⟨1410, 120⟩ = "acme-example.com19700102"
    ∧ cert_name_utc_spec "example.com" ⟨1410, 120⟩ = "acme-example.com19700101" := by
  refine ⟨by decide, rfl, rfl⟩

theorem C7_amended_local_date (dom : String) (c1 c2 : Clock) :
    (localDays c1 = localDays c2 → cert_name dom c1 = cert_name dom c2)
    ∧ (localDays c1 ≠ localDays c2 → cert_name dom c1 ≠ cert_name dom c2) := by
  constructor
  · intro h
    rw [cert_name, cert_name, strftime_Ymd, strftime_Ymd, h]
  · intro h hc
    apply h
    apply formatYYYYMMDD_inj
    apply str_data_inj
    rw [cert_name, cert_name, strftime_Ymd, strftime_Ymd] at hc
    have hdata : ("acme-" ++ dom).data ++ (formatYYYYMMDD (localDays c1)).data =
        ("acme-" ++ dom).data ++ (formatYYYYMMDD (localDays c2)).data :=
      congrArg String.data hc
    exact List.append_cancel_left hdata

theorem C7_amended_local_date_witness :
    cert_name "example.com" ⟨0, 0⟩ = cert_name "example.com" ⟨720, 0⟩
    ∧ cert_name "example.com" ⟨0, 0⟩ ≠ cert_name "example.com" ⟨1440, 0⟩ :=
  ⟨(C7_amended_local_date "example.com" ⟨0, 0⟩ ⟨720, 0⟩).1 (by decide),
    (C7_amended_local_date "example.com" ⟨0, 0⟩ ⟨1440, 0⟩).2 (by decide)⟩
